import Mathlib

/-!
Verification of the textcrawler extraction service (`crawler.go`).

This file gives a shallow embedding of the Go source into Lean: pure string
manipulation becomes functions over `List Char` / `String`, the fixed-size
article buffer becomes an explicit 100-slot list, Go `nil` slices become
`Option (List _)`, the external key-value store and the page fetch become
explicit function parameters, and code that can panic returns `Option`
(`none` = runtime panic).  Theorems about the extraction pipeline, the DOM
path builder, the word counter and the cache-aside read path follow the
definitions.
-/

namespace Crawler

/-! ## Go string primitives

The Go code uses `strings.Trim`, `strings.Split`, `strings.Join`,
`strings.Contains` (with single-character needles) and the regexp
`\s\s+` replacement.  We model each over `List Char`.
-/

/-- Character class of Go's RE2 `\s`: `[\t\n\f\r ]`. -/
def isGoSpace (c : Char) : Bool :=
  c = ' ' || c = '\t' || c = '\n' || c = '\x0c' || c = '\r'

/-- Drop leading characters belonging to `cut` (one side of `strings.Trim`). -/
def trimStartChars (cut : List Char) (cs : List Char) : List Char :=
  cs.dropWhile (fun c => cut.contains c)

/-- Go's `strings.Trim(s, cutset)`: drop leading and trailing characters in `cut`. -/
def goTrim (cut : List Char) (s : String) : String :=
  ⟨(trimStartChars cut ((trimStartChars cut s.data).reverse)).reverse⟩

/-- Go's `strings.Split(s, " ")` on the character list: split at every single
space character; the empty input yields `[[]]` (one empty field), as in Go. -/
def splitSpaceList : List Char → List (List Char)
  | [] => [[]]
  | c :: rest =>
    if c = ' ' then [] :: splitSpaceList rest
    else
      match splitSpaceList rest with
      | w :: ws => (c :: w) :: ws
      | [] => [[c]]

/-- Go's `strings.Split(s, " ")`. -/
def goSplitSpace (s : String) : List String :=
  (splitSpaceList s.data).map (fun l => ⟨l⟩)

/-- Go's `strings.Join(parts, sep)`. -/
def goJoin (sep : String) : List String → String
  | [] => ""
  | [x] => x
  | x :: xs => x ++ sep ++ goJoin sep xs

/-- Go's `strings.Contains(s, needle)` for a single-character needle, as used
on the `"."` and `"#"` markers in `buildClassesIdSet`. -/
def strContainsChar (s : String) (c : Char) : Bool :=
  s.data.contains c

/-- The replacement pass of `regexp.MustCompile(`"\\s\\s+"`).ReplaceAllString(s, " ")`:
a maximal run of two or more whitespace characters collapses to a single
space, while a lone whitespace character is left untouched (the pattern
needs at least two characters to match).  The Boolean state records whether
we are inside a run whose single replacement space was already emitted. -/
def collapseSpaceRunsAux : Bool → List Char → List Char
  | _, [] => []
  | inRun, c :: rest =>
    if isGoSpace c then
      if inRun then collapseSpaceRunsAux true rest
      else
        match rest with
        | [] => [c]
        | c2 :: _ =>
          if isGoSpace c2 then ' ' :: collapseSpaceRunsAux true rest
          else c :: collapseSpaceRunsAux false rest
    else c :: collapseSpaceRunsAux false rest

/-- All maximal whitespace runs of length at least two collapsed to a space. -/
def collapseSpaceRuns (cs : List Char) : List Char :=
  collapseSpaceRunsAux false cs

/-- `removeSpaces` from the source: trim spaces at both ends, then collapse
whitespace runs (`cleanSpaceRgx.ReplaceAllString(strings.Trim(text, " "), " ")`). -/
def removeSpaces (text : String) : String :=
  ⟨collapseSpaceRuns (goTrim [' '] text).data⟩

/-- `extractWords` from the source: `strings.Split(removeSpaces(text), " ")`.
The selection's flattened text is the `text` argument here. -/
def extractWords (text : String) : List String :=
  goSplitSpace (removeSpaces text)

/-- `extractNumWords` from the source: `len(extractWords(selection))`. -/
def extractNumWords (text : String) : Nat :=
  (extractWords text).length

/-! ## DomPathBuilder (`buildClassesIdSet`, `ClassesIdSet.ToPath`)

A DOM element is modelled by its tag name, optional `id` attribute, optional
raw `class` attribute, and its flattened text.  A node together with its
chain of ancestors (nearest first) is the input of `buildClassesIdSet`;
`selection.Parent()` is the head of the ancestor list and
`parent.Length() > 0` is its non-emptiness.
-/

/-- The attributes and flattened text of one DOM element. -/
structure ElemData where
  tag : String
  idAttr : Option String
  classAttr : Option String
  text : String
deriving DecidableEq, Repr

/-- The `ClassesIdSet` record from the source. -/
structure ClassesIdSet where
  ParentPath : String
  TagName : String
  Id : String
  Classes : List String
  WordCount : Nat
deriving DecidableEq, Repr

/-- `extractClasses` from the source: the `class` attribute split on single
spaces when present, the empty list when absent. -/
def extractClasses (e : ElemData) : List String :=
  match e.classAttr with
  | some val => goSplitSpace val
  | none => []

/-- The node's own fragment, built exactly like the `parts` list inside
`ClassesIdSet.ToPath`: `tagName`, then `"#" + id` when the id is non-empty,
then `"." + strings.Join(classes, ".")` when the class list is non-empty,
joined with no separator. -/
def fragmentOf (cs : ClassesIdSet) : String :=
  let parts := [cs.TagName]
  let parts := if cs.Id.length > 0 then parts ++ ["#" ++ cs.Id] else parts
  let parts := if cs.Classes.length > 0 then parts ++ ["." ++ goJoin "." cs.Classes] else parts
  goJoin "" parts

/-- `ClassesIdSet.ToPath` from the source:
`strings.Trim(strings.Join([]string{cs.ParentPath, fragment}, " "), " ")`. -/
def ToPath (cs : ClassesIdSet) : String :=
  goTrim [' '] (goJoin " " [cs.ParentPath, fragmentOf cs])

/-- `buildClassesIdSet` from the source, over a node and its ancestor chain.
The parent's breadcrumb is taken unless the parent's tag is `body` or
`html`; when the resulting `parentPath` contains neither `'.'` nor `'#'`,
the code climbs one more generation and, if that grandparent exists and is
not `body`/`html`, overwrites `parentPath` with the grandparent's
breadcrumb. -/
def buildClassesIdSet (self : ElemData) : List ElemData → ClassesIdSet
  | [] =>
    { Id := self.idAttr.getD "", Classes := extractClasses self,
      WordCount := extractNumWords self.text, TagName := self.tag, ParentPath := "" }
  | p :: rest =>
    let parentSet := buildClassesIdSet p rest
    let parentPath :=
      if parentSet.TagName ≠ "body" ∧ parentSet.TagName ≠ "html" then ToPath parentSet else ""
    let parentPath :=
      if ¬ strContainsChar parentPath '.' = true ∧ ¬ strContainsChar parentPath '#' = true then
        match rest with
        | [] => parentPath
        | g :: rest2 =>
          let parentSet2 := buildClassesIdSet g rest2
          if parentSet2.TagName ≠ "body" ∧ parentSet2.TagName ≠ "html" then ToPath parentSet2
          else parentPath
      else parentPath
    { Id := self.idAttr.getD "", Classes := extractClasses self,
      WordCount := extractNumWords self.text, TagName := self.tag, ParentPath := parentPath }

/-! ## Data model: LinkItem, Article, Page, Go slices

A Go slice is `nil` or a list of elements; the two matter separately because
`encoding/json` renders `nil` as `null` and a non-nil empty slice as `[]`.
`goAppend` models Go `append` (which turns `nil` into a one-element slice).
-/

/-- A Go slice: `none` is the `nil` slice, `some xs` a non-nil slice. -/
abbrev GoSlice (α : Type) := Option (List α)

/-- Go `append(s, x)`. -/
def goAppend {α : Type} (s : GoSlice α) (x : α) : GoSlice α :=
  some (s.getD [] ++ [x])

/-- The `LinkItem` record from the source. -/
structure LinkItem where
  Title : String
  Uri : String
deriving DecidableEq, Repr

/-- The `Article` record from the source. -/
structure Article where
  Title : String
  Uri : String
  Content : String
  Links : GoSlice LinkItem
deriving DecidableEq, Repr

/-- The `Page` record from the source. -/
structure Page where
  Uri : String
  Exists : Bool
  Cached : Bool
  Title : String
  Articles : GoSlice Article
  Links : GoSlice LinkItem
deriving DecidableEq, Repr

/-- `Page.setCached` from the source. -/
def setCached (p : Page) : Page :=
  { p with Cached := true }

/-- `uriIsInLinkItems` from the source: linear scan comparing each stored
`Uri` against the candidate string. -/
def uriIsInLinkItems (links : GoSlice LinkItem) (str : String) : Bool :=
  (links.getD []).any (fun l => l.Uri == str)

/-- `makeArticle` from the source. -/
def makeArticle (title uri content : String) (links : GoSlice LinkItem) : Article :=
  { Title := title, Uri := uri, Content := content, Links := links }

/-- `makePage` from the source: note `Cached` is always set to `false` here. -/
def makePage (title uri : String) (ex : Bool) (articles : GoSlice Article)
    (links : GoSlice LinkItem) : Page :=
  { Title := title, Uri := uri, Exists := ex, Articles := articles, Links := links,
    Cached := false }

/-- `emptyPage` from the source. -/
def emptyPage : Page :=
  { Title := "", Uri := "", Exists := false, Articles := none, Links := none,
    Cached := false }

/-! ## ArticleExtractor (`readBlogArticles`)

An article candidate is modelled by the outcome of `articles.Eq(i).Html()`
after the noise-element removal (`none` = serialization error), its
`h1,h2,h3` headings in document order, and all its anchor elements in
document order.  An anchor has an optional `href` attribute and a text.
-/

/-- An anchor element: optional `href` attribute and flattened text. -/
structure Anchor where
  href : Option String
  text : String
deriving DecidableEq, Repr

/-- A heading element (`h1`/`h2`/`h3`): its flattened text and the anchors
inside it, in document order. -/
structure Heading where
  text : String
  anchors : List Anchor
deriving DecidableEq, Repr

/-- One candidate node of `bow.Find("article")`, after the removal of
`img,svg,embed,iframe,object,style,script` descendants. -/
structure ArticleNode where
  htmlResult : Option String
  headings : List Heading
  anchors : List Anchor
deriving DecidableEq, Repr

/-- Scan for the end of an HTML comment: the non-greedy tail `[^>]*?-->` of
the pattern `<!--[^>]*?-->`.  Returns the suffix after the closing `-->`
when a closing sequence is reachable without crossing a `'>'`. -/
def findCommentEnd : List Char → Option (List Char)
  | [] => none
  | c1 :: rest =>
    match c1, rest with
    | '-', '-' :: '>' :: rem => some rem
    | '>', _ => none
    | _, _ => findCommentEnd rest

/-- `p1.ReplaceAllString(itemHtml, "")` with `p1 = <!--[^>]*?-->`: delete
every leftmost match of the comment pattern.  The fuel argument bounds the
number of scanning steps; `stripComments` passes the input length, which
always suffices because every step consumes at least one character. -/
def stripCommentsFuel : Nat → List Char → List Char
  | 0, cs => cs
  | _ + 1, [] => []
  | fuel + 1, c :: rest =>
    match c, rest with
    | '<', '!' :: '-' :: '-' :: tail =>
      match findCommentEnd tail with
      | some rem => stripCommentsFuel fuel rem
      | none => c :: stripCommentsFuel fuel rest
    | _, _ => c :: stripCommentsFuel fuel rest

/-- All HTML comment matches of `<!--[^>]*?-->` removed. -/
def stripComments (s : String) : String :=
  ⟨stripCommentsFuel s.data.length s.data⟩

/-- The per-article link collection loop from the source: every anchor whose
`href` attribute exists is appended, deduplicated by `href` via
`uriIsInLinkItems` (first occurrence wins).  The accumulator starts as the
`nil` slice `var links []LinkItem`. -/
def collectArticleLinksAux (links : GoSlice LinkItem) : List Anchor → GoSlice LinkItem
  | [] => links
  | a :: rest =>
    match a.href with
    | some val =>
      if uriIsInLinkItems links val then collectArticleLinksAux links rest
      else collectArticleLinksAux (goAppend links ⟨a.text, val⟩) rest
    | none => collectArticleLinksAux links rest

/-- The links of one article candidate. -/
def collectArticleLinks (anchors : List Anchor) : GoSlice LinkItem :=
  collectArticleLinksAux none anchors

/-- The zero value of the `Article` struct: the content of a buffer slot the
loop never assigns. -/
def zeroArticle : Article :=
  { Title := "", Uri := "", Content := "", Links := none }

/-- The loop body of `readBlogArticles` for one candidate: `none` means the
slot is left at the zero `Article` (serialization error, no `h1/h2/h3`
heading, or no anchor inside the first heading); `some a` means
`output[i] = makeArticle(...)` ran. -/
def processCandidate (n : ArticleNode) : Option Article :=
  match n.htmlResult with
  | none => none
  | some itemHtml =>
    let content := goTrim ['\n', '\t', ' '] (stripComments itemHtml)
    match n.headings with
    | [] => none
    | titleElement :: _ =>
      let title := titleElement.text
      match titleElement.anchors with
      | [] => none
      | linkEl :: _ =>
        let uri := linkEl.href.getD ""
        some (makeArticle title uri content (collectArticleLinks n.anchors))

/-- The article cap constant `maxNum` from the source. -/
def maxNum : Nat := 100

/-- `readBlogArticles` from the source.  `output` is the fixed
`[maxNum]Article` buffer: slot `i` holds the processed candidate when the
loop assigned it (guarded by `i < maxNum`) and the zero `Article` otherwise.
The function returns `output[0:numArticles]`; in Go, slicing the length-100
array beyond 100 panics, which the embedding renders as `none`. -/
def readBlogArticles (nodes : List ArticleNode) : Option (List Article) :=
  let numArticles := nodes.length
  let output : List Article :=
    (List.range maxNum).map (fun i =>
      match nodes.get? i with
      | some n => if i < maxNum then (processCandidate n).getD zeroArticle else zeroArticle
      | none => zeroArticle)
  if numArticles ≤ maxNum then some (output.take numArticles) else none

/-! ## Page-level link collection (`readLiveBlogPage` loop)

A browser link (`bow.Links()` element) carries a parsed URL and a text;
`linkRef.Url().Path` selects the path component, with scheme and host held
in separate fields of the parsed URL.
-/

/-- A parsed URL, as returned by `linkRef.Url()`. -/
structure URL where
  scheme : String
  host : String
  path : String
deriving DecidableEq, Repr

/-- One element of `bow.Links()`. -/
structure LinkRef where
  url : URL
  text : String
deriving DecidableEq, Repr

/-- The link loop of `readLiveBlogPage`: keep `linkRef.Url().Path` when it is
non-empty and not already present, pairing it with the link text.  The
accumulator starts as the `nil` slice `var links []LinkItem`. -/
def collectPageLinksAux (links : GoSlice LinkItem) : List LinkRef → GoSlice LinkItem
  | [] => links
  | r :: rest =>
    let path := r.url.path
    if path.length > 0 then
      if uriIsInLinkItems links path then collectPageLinksAux links rest
      else collectPageLinksAux (goAppend links ⟨r.text, path⟩) rest
    else collectPageLinksAux links rest

/-- The `links` slice of a fetched page. -/
def collectPageLinks (refs : List LinkRef) : GoSlice LinkItem :=
  collectPageLinksAux none refs

/-- Written from the specification text, not from the source: keep, in
document order, the first link for each non-empty URL path, skipping links
whose path was already seen.  `seen` is the set of already-kept paths. -/
def specCollectLinksAux (seen : List String) : List LinkRef → List LinkItem
  | [] => []
  | r :: rest =>
    if r.url.path ≠ "" ∧ ¬ r.url.path ∈ seen then
      ⟨r.text, r.url.path⟩ :: specCollectLinksAux (r.url.path :: seen) rest
    else specCollectLinksAux seen rest

/-- The specification's description of the page link sequence. -/
def specCollectLinks (refs : List LinkRef) : List LinkItem :=
  specCollectLinksAux [] refs

/-! ## Fetch, store, and the cache-aside read path

The page fetch (`surf` browser) is a function parameter
`fetch : String → Option FetchedDoc` (`none` = `bow.Open` error), and the
key-value store read is a parameter `store : String → Option String`
(`none` = missing key / read error, matching `rdb.Get(...).Result()`).
Deserialization of stored bytes is a parameter
`decode : String → Option Page`; `json.Unmarshal` of a syntactically
invalid payload leaves the target at its pre-call value, which in
`getCache` is `emptyPage`.  Store traffic is recorded as a trace of
operations so that reads and writes are visible in theorems.
-/

/-- What a successful `bow.Open` exposes to `readLiveBlogPage`: the page
title, the article candidates and the browser links. -/
structure FetchedDoc where
  title : String
  articleNodes : List ArticleNode
  links : List LinkRef
deriving Repr

/-- One operation against the key-value store. -/
inductive StoreOp where
  | get (key : String)
  | set (key : String) (value : Page) (ttlMinutes : Int)
deriving DecidableEq, Repr

/-- The bytes `setCache` writes for a page: `json.MarshalIndent(data, "", " ")`
with empty prefix and a single-space indent (defined below with the JSON
rendering). -/
def setCacheTTL : Int := 1440

/-- `getCache` from the source: on a successful read the `json.Unmarshal`
error is ignored, so a payload that fails to deserialize still produces the
(unmodified) `emptyPage` together with a nil error.  The Boolean is
`err == nil` of the store read. -/
def getCache (store : String → Option String) (decode : String → Option Page)
    (key : String) : Page × Bool :=
  match store key with
  | some bytes =>
    (match decode bytes with
     | some p => p
     | none => emptyPage, true)
  | none => (emptyPage, false)

/-- `readLiveBlogPage` from the source: a failed open yields an
`exists = false` page with empty title and nil slices; a successful open
extracts the articles (propagating the article-buffer panic as `none`),
the title, and the deduplicated link paths. -/
def readLiveBlogPage (fetch : String → Option FetchedDoc) (uri : String) :
    Option Page :=
  match fetch uri with
  | none => some (makePage "" uri false none none)
  | some doc =>
    match readBlogArticles doc.articleNodes with
    | none => none
    | some arts =>
      some (makePage doc.title uri true (some arts)
        (collectPageLinks doc.links))

/-- `readBlogPage` from the source: the cache read always runs first; its
result is served (marked cached) only when the read succeeded and the
`cached` flag is set, otherwise the live page is computed, written to the
store with a 1440-minute TTL, and returned un-cached.  The trace lists the
store operations in order. -/
def readBlogPage (fetch : String → Option FetchedDoc)
    (store : String → Option String) (decode : String → Option Page)
    (path scheme : String) (cached : Bool) :
    Option (Page × Bool × List StoreOp) :=
  let uri := scheme ++ "://" ++ path
  let cacheKey := "page:" ++ path
  let rc := getCache store decode cacheKey
  if rc.2 && cached then
    some (setCached rc.1, true, [StoreOp.get cacheKey])
  else
    match readLiveBlogPage fetch uri with
    | none => none
    | some data =>
      some (data, false, [StoreOp.get cacheKey, StoreOp.set cacheKey data setCacheTTL])

/-! ## JSON serialization of the persisted `Page`

A model of `encoding/json.MarshalIndent` for the `Page` type: field names
come from the struct tags, fields appear in declaration order, `nil` slices
render as `null` and non-nil empty slices as `[]`, and every element of an
object or array begins on a new line consisting of the prefix followed by
one copy of the indent string per nesting level.  The default encoder
escapes `"`, `\`, control characters, and the HTML-sensitive
`<`, `>`, `&`, U+2028, U+2029.
-/

/-- One lowercase hexadecimal digit. -/
def hexDigit (n : Nat) : String :=
  if n = 0 then "0" else if n = 1 then "1" else if n = 2 then "2"
  else if n = 3 then "3" else if n = 4 then "4" else if n = 5 then "5"
  else if n = 6 then "6" else if n = 7 then "7" else if n = 8 then "8"
  else if n = 9 then "9" else if n = 10 then "a" else if n = 11 then "b"
  else if n = 12 then "c" else if n = 13 then "d" else if n = 14 then "e"
  else "f"

/-- The escaped form of one character inside a JSON string literal. -/
def escapeJsonChar (c : Char) : String :=
  if c = '"' then "\\\""
  else if c = '\\' then "\\\\"
  else if c = '\n' then "\\n"
  else if c = '\r' then "\\r"
  else if c = '\t' then "\\t"
  else if c = '<' then "\\u003c"
  else if c = '>' then "\\u003e"
  else if c = '&' then "\\u0026"
  else if c.toNat < 32 then "\\u00" ++ hexDigit (c.toNat / 16) ++ hexDigit (c.toNat % 16)
  else if c.toNat = 8232 then "\\u2028"
  else if c.toNat = 8233 then "\\u2029"
  else String.singleton c

/-- A JSON string literal. -/
def quoteJson (s : String) : String :=
  "\"" ++ goJoin "" (s.data.map escapeJsonChar) ++ "\""

/-- `n` copies of a string, for indentation. -/
def dupStr (s : String) : Nat → String
  | 0 => ""
  | n + 1 => s ++ dupStr s n

/-- A `LinkItem` object at nesting depth `d`. -/
def renderLinkItem (pfx ind : String) (d : Nat) (it : LinkItem) : String :=
  "\x7b\n"
  ++ pfx ++ dupStr ind (d + 1) ++ quoteJson "title" ++ ": " ++ quoteJson it.Title ++ ",\n"
  ++ pfx ++ dupStr ind (d + 1) ++ quoteJson "uri" ++ ": " ++ quoteJson it.Uri ++ "\n"
  ++ pfx ++ dupStr ind d ++ "\x7d"

/-- The elements of a `LinkItem` array, one per line at depth `d + 1`. -/
def renderLinkItemList (pfx ind : String) (d : Nat) : List LinkItem → String
  | [] => ""
  | [x] => pfx ++ dupStr ind (d + 1) ++ renderLinkItem pfx ind (d + 1) x
  | x :: xs =>
    pfx ++ dupStr ind (d + 1) ++ renderLinkItem pfx ind (d + 1) x ++ ",\n"
      ++ renderLinkItemList pfx ind d xs

/-- A `[]LinkItem` slice: `null` when nil, `[]` when empty, a bracketed
per-line list otherwise. -/
def renderLinkSlice (pfx ind : String) (d : Nat) : GoSlice LinkItem → String
  | none => "null"
  | some [] => "[]"
  | some (x :: xs) =>
    "[\n" ++ renderLinkItemList pfx ind d (x :: xs) ++ "\n" ++ pfx ++ dupStr ind d ++ "]"

/-- An `Article` object at nesting depth `d`. -/
def renderArticle (pfx ind : String) (d : Nat) (a : Article) : String :=
  "\x7b\n"
  ++ pfx ++ dupStr ind (d + 1) ++ quoteJson "title" ++ ": " ++ quoteJson a.Title ++ ",\n"
  ++ pfx ++ dupStr ind (d + 1) ++ quoteJson "uri" ++ ": " ++ quoteJson a.Uri ++ ",\n"
  ++ pfx ++ dupStr ind (d + 1) ++ quoteJson "content" ++ ": " ++ quoteJson a.Content ++ ",\n"
  ++ pfx ++ dupStr ind (d + 1) ++ quoteJson "links" ++ ": "
    ++ renderLinkSlice pfx ind (d + 1) a.Links ++ "\n"
  ++ pfx ++ dupStr ind d ++ "\x7d"

/-- The elements of an `Article` array, one per line at depth `d + 1`. -/
def renderArticleList (pfx ind : String) (d : Nat) : List Article → String
  | [] => ""
  | [x] => pfx ++ dupStr ind (d + 1) ++ renderArticle pfx ind (d + 1) x
  | x :: xs =>
    pfx ++ dupStr ind (d + 1) ++ renderArticle pfx ind (d + 1) x ++ ",\n"
      ++ renderArticleList pfx ind d xs

/-- A `[]Article` slice. -/
def renderArticleSlice (pfx ind : String) (d : Nat) : GoSlice Article → String
  | none => "null"
  | some [] => "[]"
  | some (x :: xs) =>
    "[\n" ++ renderArticleList pfx ind d (x :: xs) ++ "\n" ++ pfx ++ dupStr ind d ++ "]"

/-- A JSON boolean. -/
def renderBool (b : Bool) : String :=
  if b then "true" else "false"

/-- `json.MarshalIndent` of a `Page` with the given prefix and indent. -/
def marshalIndentPage (p : Page) (pfx ind : String) : String :=
  "\x7b\n"
  ++ pfx ++ ind ++ quoteJson "uri" ++ ": " ++ quoteJson p.Uri ++ ",\n"
  ++ pfx ++ ind ++ quoteJson "exists" ++ ": " ++ renderBool p.Exists ++ ",\n"
  ++ pfx ++ ind ++ quoteJson "cached" ++ ": " ++ renderBool p.Cached ++ ",\n"
  ++ pfx ++ ind ++ quoteJson "title" ++ ": " ++ quoteJson p.Title ++ ",\n"
  ++ pfx ++ ind ++ quoteJson "articles" ++ ": " ++ renderArticleSlice pfx ind 1 p.Articles ++ ",\n"
  ++ pfx ++ ind ++ quoteJson "links" ++ ": " ++ renderLinkSlice pfx ind 1 p.Links ++ "\n"
  ++ pfx ++ "\x7d"

/-- The bytes `setCache` persists for a page:
`json.MarshalIndent(data, "", " ")` — empty prefix and a SINGLE-space
indent string. -/
def setCacheBytes (data : Page) : String :=
  marshalIndentPage data "" " "

/-! ## Concrete fixtures used by witnesses and counterexamples -/

/-- An article candidate whose markup serializes but which has no
`h1`/`h2`/`h3` heading. -/
def doclessNode : ArticleNode :=
  { htmlResult := some "<p>x</p>", headings := [], anchors := [] }

/-- An article candidate with a proper heading anchor, matching the spec's
end-to-end example. -/
def postNode : ArticleNode :=
  { htmlResult := some "<h2><a href=\"/p1\">T</a></h2><!-- c --><p>hello world</p>",
    headings := [{ text := "T", anchors := [{ href := some "/p1", text := "T" }] }],
    anchors := [{ href := some "/p1", text := "T" }] }

/-- A fetch that always succeeds with a title and no candidates or links. -/
def fetchFixture : String → Option FetchedDoc :=
  fun _ => some { title := "T", articleNodes := [], links := [] }

/-- A store with no keys. -/
def storeMiss : String → Option String :=
  fun _ => none

/-- A store holding bytes under every key. -/
def storeGarbage : String → Option String :=
  fun _ => some "garbage"

/-- A deserializer that always fails. -/
def decodeFail : String → Option Page :=
  fun _ => none

/-- The page `fetchFixture` produces for the `http://p` request. -/
def pageFixture : Page :=
  makePage "T" "http://p" true (some []) none

/-- A valid previously-cached page. -/
def cachedPageFixture : Page :=
  makePage "C" "http://x" true none none

/-- A deserializer that always succeeds with `cachedPageFixture`. -/
def decodeFixture : String → Option Page :=
  fun _ => some cachedPageFixture

/-- A `section` element with class `c` (grandparent of the skip-rule
counterexample). -/
def gEl : ElemData := { tag := "section", idAttr := none, classAttr := some "c", text := "" }

/-- A `div` element with no id and no class. -/
def pEl : ElemData := { tag := "div", idAttr := none, classAttr := none, text := "" }

/-- A `div` element with class `k`. -/
def pEl2 : ElemData := { tag := "div", idAttr := none, classAttr := some "k", text := "" }

/-- A `span` element with no id and no class. -/
def sEl : ElemData := { tag := "span", idAttr := none, classAttr := none, text := "" }

/-- Browser links exercising path selection, empty-path exclusion and
path deduplication. -/
def refsFixture : List LinkRef :=
  [ { url := { scheme := "http", host := "h", path := "/a" }, text := "A" },
    { url := { scheme := "http", host := "h", path := "" }, text := "E" },
    { url := { scheme := "https", host := "h2", path := "/a" }, text := "A2" },
    { url := { scheme := "http", host := "h", path := "/b" }, text := "B" } ]

/-! ## Derived definitions used in statements -/

/-- The immediate parent's breadcrumb as `buildClassesIdSet` computes it:
the parent's `ToPath` unless the parent's tag is `body` or `html`, in which
case the empty string. -/
def parentCrumbOf (p : ElemData) (rest : List ElemData) : String :=
  if (buildClassesIdSet p rest).TagName ≠ "body" ∧ (buildClassesIdSet p rest).TagName ≠ "html"
  then ToPath (buildClassesIdSet p rest) else ""

/-- A breadcrumb string assembled only from fragments of elements of the
given ancestor chain whose tag is neither `body` nor `html`: either empty,
or the `ToPath` of the descriptor that `buildClassesIdSet` builds at an
element `e` of the chain (`e :: sub` a suffix of the chain, so `sub` is
`e`'s own ancestor list) with `e.tag` neither `body` nor `html`, whose own
parent path is again of this shape over `sub`.  Anchoring every layer to a
real element of the chain is what makes the predicate meaningful: a string
like `"body div"` is not of this shape unless the chain really contains an
element with that tag. -/
inductive CrumbFrom : List ElemData → String → Prop where
  | empty (anc : List ElemData) : CrumbFrom anc ""
  | layer (anc : List ElemData) (e : ElemData) (sub : List ElemData)
      (hsub : (e :: sub) <:+ anc)
      (hb : e.tag ≠ "body") (hh : e.tag ≠ "html")
      (hp : CrumbFrom sub (buildClassesIdSet e sub).ParentPath) :
      CrumbFrom anc (ToPath (buildClassesIdSet e sub))

/-! ## Helper lemmas -/

/-- A non-empty string has positive length. -/
theorem string_length_pos (s : String) : 0 < s.length ↔ s ≠ "" := by
  cases s with
  | mk data =>
    cases data with
    | nil => simp [String.length]
    | cons c cs =>
      simp only [String.length]
      constructor
      · intro _ h
        exact List.cons_ne_nil c cs (congrArg String.data h)
      · intro _
        simp

/-- Membership after a Go `append` on the accumulated link slice. -/
theorem uriIsInLinkItems_append (links : GoSlice LinkItem) (it : LinkItem) (s : String) :
    uriIsInLinkItems (goAppend links it) s = (uriIsInLinkItems links s || it.Uri == s) := by
  simp [uriIsInLinkItems, goAppend, List.any_append]

/-- The `nil` accumulator contains nothing. -/
theorem uriIsInLinkItems_none (s : String) : uriIsInLinkItems none s = false := by
  simp [uriIsInLinkItems]

/-- `List.range`-indexed reads of a list, restricted to its length, are the
list itself. -/
theorem range_map_get_eq_map {α β : Type} (g : α → β) (z : β) (l : List α) :
    (List.range l.length).map (fun i => ((l.get? i).map g).getD z) = l.map g := by
  induction l with
  | nil => simp
  | cons x xs ih =>
    rw [List.length_cons, List.range_succ_eq_map]
    simp only [List.map_cons, List.map_map]
    refine congrArg₂ _ rfl ?_
    have hfun : ((fun i => (((x :: xs).get? i).map g).getD z) ∘ Nat.succ)
        = (fun i => ((xs.get? i).map g).getD z) := by
      funext i
      rfl
    rw [hfun, ih]

/-- The buffer of `readBlogArticles`, truncated to the candidate count,
is the per-candidate map when the count is within the cap. -/
theorem readBlogArticles_buffer (nodes : List ArticleNode) (h : nodes.length ≤ maxNum) :
    readBlogArticles nodes
      = some (nodes.map (fun n => (processCandidate n).getD zeroArticle)) := by
  unfold readBlogArticles
  rw [if_pos h]
  refine congrArg _ ?_
  have hcong : (List.range maxNum).map (fun i =>
        match nodes.get? i with
        | some n => if i < maxNum then (processCandidate n).getD zeroArticle else zeroArticle
        | none => zeroArticle)
      = (List.range maxNum).map (fun i =>
        ((nodes.get? i).map (fun n => (processCandidate n).getD zeroArticle)).getD
          zeroArticle) := by
    refine List.map_congr_left ?_
    intro i hi
    have hilt : i < maxNum := List.mem_range.mp hi
    cases nodes.get? i with
    | some n => simp [hilt]
    | none => rfl
  rw [hcong]
  rw [← List.map_take]
  rw [List.take_range, Nat.min_eq_left h]
  exact range_map_get_eq_map (fun n => (processCandidate n).getD zeroArticle) zeroArticle nodes

/-- The source's accumulator loop agrees with the specification-style
first-occurrence dedup, given that the accumulated uris are exactly the
`seen` set. -/
theorem collectPageLinksAux_spec :
    ∀ (refs : List LinkRef) (links : GoSlice LinkItem) (seen : List String),
      (∀ s : String, uriIsInLinkItems links s = true ↔ s ∈ seen) →
      (collectPageLinksAux links refs).getD []
        = links.getD [] ++ specCollectLinksAux seen refs := by
  intro refs
  induction refs with
  | nil =>
    intro links seen _
    simp [collectPageLinksAux, specCollectLinksAux]
  | cons r rest ih =>
    intro links seen hinv
    by_cases hpath : r.url.path = ""
    · have hlen : ¬ r.url.path.length > 0 := by
        simp [hpath]
      simp only [collectPageLinksAux, specCollectLinksAux]
      rw [if_neg hlen, if_neg (by simp [hpath])]
      exact ih links seen hinv
    · have hlen : r.url.path.length > 0 := (string_length_pos r.url.path).mpr hpath
      by_cases hmem : r.url.path ∈ seen
      · have hin : uriIsInLinkItems links r.url.path = true := (hinv r.url.path).mpr hmem
        simp only [collectPageLinksAux, specCollectLinksAux]
        rw [if_pos hlen, if_pos hin, if_neg (by simp [hmem])]
        exact ih links seen hinv
      · have hin : ¬ uriIsInLinkItems links r.url.path = true := by
          intro hc
          exact hmem ((hinv r.url.path).mp hc)
        simp only [collectPageLinksAux, specCollectLinksAux]
        rw [if_pos hlen, if_neg hin, if_pos (by exact ⟨hpath, hmem⟩)]
        have hinv2 : ∀ s : String,
            uriIsInLinkItems (goAppend links ⟨r.text, r.url.path⟩) s = true
              ↔ s ∈ r.url.path :: seen := by
          intro s
          rw [uriIsInLinkItems_append]
          simp only [Bool.or_eq_true, beq_iff_eq]
          constructor
          · intro hc
            cases hc with
            | inl hl => exact List.mem_cons_of_mem _ ((hinv s).mp hl)
            | inr hr => exact hr ▸ List.mem_cons_self _ _
          · intro hc
            cases List.mem_cons.mp hc with
            | inl hl => exact Or.inr hl.symm
            | inr hr => exact Or.inl ((hinv s).mpr hr)
        rw [ih (goAppend links ⟨r.text, r.url.path⟩) (r.url.path :: seen) hinv2]
        simp [goAppend]

/-- Every emitted link of the specification dedup has a non-empty path
taken from some input link, with that link's text. -/
theorem specCollectLinksAux_mem :
    ∀ (refs : List LinkRef) (seen : List String) (it : LinkItem),
      it ∈ specCollectLinksAux seen refs →
      it.Uri ≠ "" ∧ ∃ r ∈ refs, it.Uri = r.url.path ∧ it.Title = r.text := by
  intro refs
  induction refs with
  | nil =>
    intro seen it hmem
    simp [specCollectLinksAux] at hmem
  | cons r rest ih =>
    intro seen it hmem
    simp only [specCollectLinksAux] at hmem
    by_cases hc : r.url.path ≠ "" ∧ ¬ r.url.path ∈ seen
    · rw [if_pos hc] at hmem
      cases List.mem_cons.mp hmem with
      | inl heq =>
        refine ⟨heq ▸ hc.1, r, List.mem_cons_self _ _, ?_, ?_⟩
        · rw [heq]
        · rw [heq]
      | inr htail =>
        obtain ⟨h1, rr, hrr, h2, h3⟩ := ih (r.url.path :: seen) it htail
        exact ⟨h1, rr, List.mem_cons_of_mem _ hrr, h2, h3⟩
    · rw [if_neg hc] at hmem
      obtain ⟨h1, rr, hrr, h2, h3⟩ := ih seen it hmem
      exact ⟨h1, rr, List.mem_cons_of_mem _ hrr, h2, h3⟩

/-- The specification dedup never re-emits a path it has already seen. -/
theorem specCollectLinksAux_avoids_seen :
    ∀ (refs : List LinkRef) (seen : List String) (s : String),
      s ∈ seen → ¬ s ∈ (specCollectLinksAux seen refs).map LinkItem.Uri := by
  intro refs
  induction refs with
  | nil =>
    intro seen s _ hmem
    simp [specCollectLinksAux] at hmem
  | cons r rest ih =>
    intro seen s hs hmem
    simp only [specCollectLinksAux] at hmem
    by_cases hc : r.url.path ≠ "" ∧ ¬ r.url.path ∈ seen
    · rw [if_pos hc] at hmem
      simp only [List.map_cons] at hmem
      cases List.mem_cons.mp hmem with
      | inl heq =>
        exact hc.2 (heq ▸ hs)
      | inr htail =>
        exact ih (r.url.path :: seen) s (List.mem_cons_of_mem _ hs) htail
    · rw [if_neg hc] at hmem
      exact ih seen s hs hmem

/-- The paths emitted by the specification dedup are pairwise distinct. -/
theorem specCollectLinksAux_nodup :
    ∀ (refs : List LinkRef) (seen : List String),
      ((specCollectLinksAux seen refs).map LinkItem.Uri).Nodup := by
  intro refs
  induction refs with
  | nil =>
    intro seen
    simp [specCollectLinksAux]
  | cons r rest ih =>
    intro seen
    simp only [specCollectLinksAux]
    by_cases hc : r.url.path ≠ "" ∧ ¬ r.url.path ∈ seen
    · rw [if_pos hc]
      simp only [List.map_cons, List.nodup_cons]
      exact ⟨specCollectLinksAux_avoids_seen rest (r.url.path :: seen) r.url.path
          (List.mem_cons_self _ _), ih (r.url.path :: seen)⟩
    · rw [if_neg hc]
      exact ih seen

/-- A page computed by `readLiveBlogPage` always carries `Cached = false`. -/
theorem readLiveBlogPage_not_cached (fetch : String → Option FetchedDoc) (uri : String)
    (data : Page) (h : readLiveBlogPage fetch uri = some data) : data.Cached = false := by
  unfold readLiveBlogPage at h
  split at h
  · cases h
    rfl
  · split at h
    · cases h
    · cases h
      rfl

/-- Both arms of `buildClassesIdSet` set the tag name to the node's own tag. -/
theorem buildClassesIdSet_TagName (self : ElemData) :
    ∀ ancestors : List ElemData, (buildClassesIdSet self ancestors).TagName = self.tag := by
  intro ancestors
  cases ancestors with
  | nil => rfl
  | cons p rest =>
    unfold buildClassesIdSet
    rfl

/-- One unfolding of the parent-path computation of `buildClassesIdSet`,
phrased through `parentCrumbOf`. -/
theorem buildClassesIdSet_ParentPath_eq (self p : ElemData) (rest : List ElemData) :
    (buildClassesIdSet self (p :: rest)).ParentPath =
      (if ¬ strContainsChar (parentCrumbOf p rest) '.' = true ∧
          ¬ strContainsChar (parentCrumbOf p rest) '#' = true then
         match rest with
         | [] => parentCrumbOf p rest
         | g :: rest2 =>
           if (buildClassesIdSet g rest2).TagName ≠ "body" ∧
              (buildClassesIdSet g rest2).TagName ≠ "html"
           then ToPath (buildClassesIdSet g rest2) else parentCrumbOf p rest
       else parentCrumbOf p rest) := by
  cases rest with
  | nil => rfl
  | cons g rest2 => rfl

/-- The parent path of `buildClassesIdSet` is assembled from fragments of
chain elements that are not root wrappers, by induction on the length of
the ancestor chain. -/
theorem buildClassesIdSet_parentPath_good :
    ∀ (n : Nat) (ancestors : List ElemData), ancestors.length ≤ n →
      ∀ self : ElemData, CrumbFrom ancestors (buildClassesIdSet self ancestors).ParentPath := by
  intro n
  induction n with
  | zero =>
    intro ancestors h self
    cases ancestors with
    | nil => exact CrumbFrom.empty []
    | cons p rest => simp at h
  | succ n ih =>
    intro ancestors h self
    cases ancestors with
    | nil => exact CrumbFrom.empty []
    | cons p rest =>
      have hrest : rest.length ≤ n := by
        simp only [List.length_cons] at h
        omega
      have hpp0 : CrumbFrom (p :: rest) (parentCrumbOf p rest) := by
        unfold parentCrumbOf
        split
        · rename_i hcond
          have hb : p.tag ≠ "body" := by
            have hc := hcond.1
            rwa [buildClassesIdSet_TagName] at hc
          have hh : p.tag ≠ "html" := by
            have hc := hcond.2
            rwa [buildClassesIdSet_TagName] at hc
          exact CrumbFrom.layer (p :: rest) p rest (List.suffix_refl (p :: rest)) hb hh
            (ih rest hrest p)
        · exact CrumbFrom.empty (p :: rest)
      cases rest with
      | nil =>
        rw [buildClassesIdSet_ParentPath_eq]
        split
        · exact hpp0
        · exact hpp0
      | cons g rest2 =>
        have hrest2 : rest2.length ≤ n := by
          simp only [List.length_cons] at hrest
          omega
        rw [buildClassesIdSet_ParentPath_eq]
        split
        · show CrumbFrom (p :: g :: rest2)
            (if (buildClassesIdSet g rest2).TagName ≠ "body" ∧
                (buildClassesIdSet g rest2).TagName ≠ "html"
             then ToPath (buildClassesIdSet g rest2) else parentCrumbOf p (g :: rest2))
          split
          · rename_i hcond2
            have hb : g.tag ≠ "body" := by
              have hc := hcond2.1
              rwa [buildClassesIdSet_TagName] at hc
            have hh : g.tag ≠ "html" := by
              have hc := hcond2.2
              rwa [buildClassesIdSet_TagName] at hc
            exact CrumbFrom.layer (p :: g :: rest2) g rest2
              (List.suffix_cons p (g :: rest2)) hb hh (ih rest2 hrest2 g)
          · exact hpp0
        · exact hpp0

/-! ## Claims -/

/-- Claim C1 (code bug): the claim says candidates beyond the fixed cap of
100 are silently dropped with no failure and no panic.  The code caps the
loop at 100 but then returns `output[0:numArticles]`, which for more than
100 candidates slices the length-100 array out of range and panics at
runtime (`none` in the embedding); at exactly 100 candidates no panic
occurs. -/
theorem readBlogArticles_panics_past_cap :
    readBlogArticles (List.replicate 101 doclessNode) = none ∧
    readBlogArticles (List.replicate 100 doclessNode) ≠ none := by
  decide

/-- Claim C2, counterexample: a candidate whose markup serializes but which
has no `h1/h2/h3` heading still contributes an entry to the returned
sequence — the zero `Article`, whose `uri` and `title` are empty — instead
of being skipped entirely as the claim states. -/
theorem readBlogArticles_zero_slot_counterexample :
    readBlogArticles [doclessNode] = some [zeroArticle] ∧
    zeroArticle.Uri = "" ∧
    zeroArticle.Title = "" ∧
    readBlogArticles [doclessNode] ≠ some [] := by
  decide

/-- Claim C2, amended: within the 100-candidate cap the returned sequence
has exactly one entry per candidate; a candidate whose serialization fails,
that has no `h1/h2/h3` heading, or whose first heading contains no anchor,
contributes the zero `Article` (empty title, empty uri, empty content, nil
links) in its slot; every other candidate contributes an Article titled by
its first heading's text whose uri is that heading's first anchor's `href`
attribute — the empty string when the attribute is missing. -/
theorem readBlogArticles_slot_characterization (nodes : List ArticleNode)
    (h : nodes.length ≤ maxNum) :
    readBlogArticles nodes
      = some (nodes.map (fun n => (processCandidate n).getD zeroArticle)) ∧
    (∀ n ∈ nodes, n.htmlResult = none → processCandidate n = none) ∧
    (∀ n ∈ nodes, n.headings = [] → processCandidate n = none) ∧
    (∀ n ∈ nodes, ∀ hd tl, n.headings = hd :: tl → hd.anchors = [] →
      processCandidate n = none) ∧
    (∀ n ∈ nodes, ∀ a, processCandidate n = some a →
      ∃ hd tl anc ancs, n.headings = hd :: tl ∧ hd.anchors = anc :: ancs ∧
        a.Title = hd.text ∧ a.Uri = anc.href.getD "") ∧
    (∀ n ∈ nodes, ∀ itemHtml hd tl anc ancs,
      n.htmlResult = some itemHtml → n.headings = hd :: tl → hd.anchors = anc :: ancs →
      processCandidate n
        = some (makeArticle hd.text (anc.href.getD "")
            (goTrim ['\n', '\t', ' '] (stripComments itemHtml))
            (collectArticleLinks n.anchors))) := by
  refine ⟨readBlogArticles_buffer nodes h, ?_, ?_, ?_, ?_, ?_⟩
  · intro n _ hh
    unfold processCandidate
    rw [hh]
  · intro n _ hh
    unfold processCandidate
    rw [hh]
    split <;> rfl
  · intro n _ hd tl hh ha
    unfold processCandidate
    rw [hh]
    dsimp only
    rw [ha]
    split <;> rfl
  · intro n _ a hp
    unfold processCandidate at hp
    cases hhtml : n.htmlResult with
    | none =>
      rw [hhtml] at hp
      cases hp
    | some itemHtml =>
      rw [hhtml] at hp
      dsimp only at hp
      cases hhead : n.headings with
      | nil =>
        rw [hhead] at hp
        cases hp
      | cons hd tl =>
        rw [hhead] at hp
        dsimp only at hp
        cases hanc : hd.anchors with
        | nil =>
          rw [hanc] at hp
          cases hp
        | cons anc ancs =>
          rw [hanc] at hp
          dsimp only at hp
          cases hp
          exact ⟨hd, tl, anc, ancs, rfl, hanc, rfl, rfl⟩
  · intro n _ itemHtml hd tl anc ancs hhtml hhead hanc
    unfold processCandidate
    rw [hhtml]
    dsimp only
    rw [hhead]
    dsimp only
    rw [hanc]

/-- Witness for the amended claim C2 at a two-candidate document: one
heading-less candidate occupying a zero slot and one valid candidate that
does emit its heading-derived article. -/
theorem readBlogArticles_slot_characterization_witness :
    readBlogArticles [doclessNode, postNode]
      = some ([doclessNode, postNode].map
          (fun n => (processCandidate n).getD zeroArticle)) ∧
    processCandidate doclessNode = none ∧
    processCandidate postNode
      = some (makeArticle "T" "/p1"
          (goTrim ['\n', '\t', ' '] (stripComments
            "<h2><a href=\"/p1\">T</a></h2><!-- c --><p>hello world</p>"))
          (collectArticleLinks postNode.anchors)) :=
  ⟨(readBlogArticles_slot_characterization [doclessNode, postNode] (by decide)).1,
   (readBlogArticles_slot_characterization [doclessNode, postNode] (by decide)).2.2.1
     doclessNode (by decide) rfl,
   (readBlogArticles_slot_characterization [doclessNode, postNode] (by decide)).2.2.2.2.2
     postNode (by decide)
     "<h2><a href=\"/p1\">T</a></h2><!-- c --><p>hello world</p>"
     { text := "T", anchors := [{ href := some "/p1", text := "T" }] } []
     { href := some "/p1", text := "T" } [] rfl rfl rfl⟩

/-- Claim C3, counterexample: with the key present but holding bytes that
fail to deserialize, and `useCache = true`, `readBlogPage` performs no
fresh computation and no store write; it returns the zero-value page marked
as cached with `servedFromCache = true`, not the freshly computed page
(whose title here would be `"T"`) with `servedFromCache = false`. -/
theorem readBlogPage_malformed_payload_counterexample :
    readBlogPage fetchFixture storeGarbage decodeFail "p" "http" true
      = some (setCached emptyPage, true, [StoreOp.get "page:p"]) ∧
    (setCached emptyPage).Title = "" ∧
    readLiveBlogPage fetchFixture "http://p" = some pageFixture ∧
    pageFixture.Title = "T" := by
  decide

/-- Claim C3, amended: when the cache read finds the key but the stored
bytes fail to deserialize, `getOrCompute` does not fall through to fresh
computation — the `Unmarshal` error is ignored, the compute function is
not invoked, nothing is written, and the zero-value `Page` with the cached
flag set is returned with `servedFromCache = true`. -/
theorem readBlogPage_malformed_payload_hit (fetch : String → Option FetchedDoc)
    (store : String → Option String) (decode : String → Option Page)
    (path scheme bytes : String)
    (hstore : store ("page:" ++ path) = some bytes)
    (hdecode : decode bytes = none) :
    readBlogPage fetch store decode path scheme true
      = some (setCached emptyPage, true, [StoreOp.get ("page:" ++ path)]) := by
  simp [readBlogPage, getCache, hstore, hdecode]

/-- Witness for the amended claim C3 at a concrete store and payload. -/
theorem readBlogPage_malformed_payload_hit_witness :
    readBlogPage fetchFixture storeGarbage decodeFail "p" "http" true
      = some (setCached emptyPage, true, [StoreOp.get "page:p"]) :=
  readBlogPage_malformed_payload_hit fetchFixture storeGarbage decodeFail "p" "http"
    "garbage" rfl rfl

/-- Claim C4, counterexample: with `useCache = false` the store read is not
skipped — the trace of the call begins with a `get` on the cache key, even
though the result is then discarded and the fresh value is computed and
written. -/
theorem readBlogPage_refresh_counterexample :
    readBlogPage fetchFixture storeGarbage decodeFixture "p" "http" false
      = some (pageFixture, false,
          [StoreOp.get "page:p", StoreOp.set "page:p" pageFixture 1440]) ∧
    StoreOp.get "page:p"
      ∈ [StoreOp.get "page:p", StoreOp.set "page:p" pageFixture 1440] := by
  decide

/-- Claim C4, amended: when `useCache` is false, `getOrCompute` still
performs the store read but discards its result; it always calls the
compute function, always writes the fresh value under the key with the
1440-minute TTL, and returns it with `servedFromCache = false`, regardless
of any prior cache state (the store and decoder are universally
quantified). -/
theorem readBlogPage_refresh_always_computes (fetch : String → Option FetchedDoc)
    (store : String → Option String) (decode : String → Option Page)
    (path scheme : String) (data : Page)
    (hlive : readLiveBlogPage fetch (scheme ++ "://" ++ path) = some data) :
    readBlogPage fetch store decode path scheme false
      = some (data, false, [StoreOp.get ("page:" ++ path),
          StoreOp.set ("page:" ++ path) data setCacheTTL]) := by
  simp [readBlogPage, hlive]

/-- Witness for the amended claim C4 at a concrete populated store. -/
theorem readBlogPage_refresh_always_computes_witness :
    readBlogPage fetchFixture storeGarbage decodeFixture "p" "http" false
      = some (pageFixture, false, [StoreOp.get "page:p",
          StoreOp.set "page:p" pageFixture setCacheTTL]) :=
  readBlogPage_refresh_always_computes fetchFixture storeGarbage decodeFixture "p" "http"
    pageFixture (by decide)

/-- Claim C5, counterexample: for a `span` inside a plain `div` inside
`section.c`, the immediate parent's own fragment is `"div"`, which contains
neither `'.'` nor `'#'`, so by the claim the skip-rule should fire and the
grandparent's breadcrumb `"section.c"` should be used; the code instead
tests the parent's full breadcrumb `"section.c div"` (which contains `'.'`),
does not skip, and uses the parent's breadcrumb. -/
theorem buildClassesIdSet_skip_counterexample :
    fragmentOf (buildClassesIdSet pEl [gEl]) = "div" ∧
    strContainsChar "div" '.' = false ∧
    strContainsChar "div" '#' = false ∧
    (buildClassesIdSet sEl [pEl, gEl]).ParentPath = "section.c div" ∧
    ToPath (buildClassesIdSet pEl [gEl]) = "section.c div" ∧
    ToPath (buildClassesIdSet gEl []) = "section.c" ∧
    ("section.c div" : String) ≠ "section.c" := by
  decide

/-- Claim C5, amended: the skip-rule triggers exactly when the immediate
parent's computed breadcrumb — its full `ToPath`, or the empty string when
the parent's tag is html/body — contains neither a `'.'` nor a `'#'`
marker; in that case the grandparent's breadcrumb is used instead (under
the same html/body exclusion, keeping the parent value when the grandparent
is absent or excluded), and the climb is applied at most once per call. -/
theorem buildClassesIdSet_skip_on_breadcrumb (self p : ElemData) (rest : List ElemData) :
    ((strContainsChar (parentCrumbOf p rest) '.' = true ∨
      strContainsChar (parentCrumbOf p rest) '#' = true) →
      (buildClassesIdSet self (p :: rest)).ParentPath = parentCrumbOf p rest) ∧
    (strContainsChar (parentCrumbOf p rest) '.' = false →
     strContainsChar (parentCrumbOf p rest) '#' = false →
      (buildClassesIdSet self (p :: rest)).ParentPath =
        (match rest with
         | [] => parentCrumbOf p rest
         | g :: rest2 =>
           if (buildClassesIdSet g rest2).TagName ≠ "body" ∧
              (buildClassesIdSet g rest2).TagName ≠ "html"
           then ToPath (buildClassesIdSet g rest2) else parentCrumbOf p rest)) := by
  constructor
  · intro hor
    rw [buildClassesIdSet_ParentPath_eq, if_neg]
    intro hand
    cases hor with
    | inl h1 => exact hand.1 h1
    | inr h2 => exact hand.2 h2
  · intro h1 h2
    rw [buildClassesIdSet_ParentPath_eq,
      if_pos ⟨by simp [h1], by simp [h2]⟩]

/-- Witness for the amended claim C5: a parent breadcrumb with a class
marker blocks the climb, a marker-free one enables it. -/
theorem buildClassesIdSet_skip_on_breadcrumb_witness :
    (buildClassesIdSet sEl [pEl2]).ParentPath = parentCrumbOf pEl2 [] ∧
    (buildClassesIdSet sEl [pEl]).ParentPath = parentCrumbOf pEl [] :=
  ⟨(buildClassesIdSet_skip_on_breadcrumb sEl pEl2 []).1 (Or.inl (by decide)),
   (buildClassesIdSet_skip_on_breadcrumb sEl pEl []).2 (by decide) (by decide)⟩

/-- Claim C6 (confirmed): the breadcrumb produced by path building is
assembled only from fragments of elements of the actual ancestor chain
whose tag is neither `body` nor `html`, at every ancestor depth, including
when the skip-rule climbs to a grandparent; the node's own `ToPath` is
likewise of that shape over the node-plus-ancestors chain whenever the node
itself is not a root wrapper. -/
theorem buildPath_excludes_html_body (ancestors : List ElemData) (self : ElemData) :
    CrumbFrom ancestors (buildClassesIdSet self ancestors).ParentPath ∧
    (self.tag ≠ "body" → self.tag ≠ "html" →
      CrumbFrom (self :: ancestors) (ToPath (buildClassesIdSet self ancestors))) := by
  have main := buildClassesIdSet_parentPath_good ancestors.length ancestors (le_refl _)
  constructor
  · exact main self
  · intro hb hh
    exact CrumbFrom.layer (self :: ancestors) self ancestors
      (List.suffix_refl (self :: ancestors)) hb hh (main self)

/-- Witness for claim C6 at a concrete node with ancestors exercising the
skip-rule. -/
theorem buildPath_excludes_html_body_witness :
    CrumbFrom [sEl, pEl, gEl] (ToPath (buildClassesIdSet sEl [pEl, gEl])) :=
  (buildPath_excludes_html_body [pEl, gEl] sEl).2 (by decide) (by decide)

/-- Claim C7 (confirmed): the word counter collapses whitespace runs, trims
spaces, and splits on single spaces, giving the documented values — in
particular the empty string counts as one word. -/
theorem extractNumWords_values :
    extractNumWords "" = 1 ∧
    extractNumWords "a   b" = 2 ∧
    extractNumWords "  a  b  c  " = 3 ∧
    extractWords "  a  b  c  " = ["a", "b", "c"] := by
  decide

/-- Claim C8, counterexample: the persisted bytes of a freshly computed
page use a SINGLE-space indent (`json.MarshalIndent(data, "", " ")`), not
the two-space indentation the claim states; key and TTL are as claimed. -/
theorem setCache_indent_counterexample :
    readBlogPage fetchFixture storeMiss decodeFail "p" "http" true
      = some (pageFixture, false,
          [StoreOp.get "page:p", StoreOp.set "page:p" pageFixture 1440]) ∧
    setCacheBytes pageFixture
      = "\x7b\n \"uri\": \"http://p\",\n \"exists\": true,\n \"cached\": false,\n \"title\": \"T\",\n \"articles\": [],\n \"links\": null\n\x7d" ∧
    setCacheBytes pageFixture ≠ marshalIndentPage pageFixture "" "  " := by
  decide

/-- Claim C8, amended: a freshly computed `Page` is persisted as
pretty-printed JSON with ONE-space indentation, under the key
`"page:" + path` (scheme excluded), with a fixed TTL of 1440 minutes. -/
theorem readBlogPage_persist_format (fetch : String → Option FetchedDoc)
    (store : String → Option String) (decode : String → Option Page)
    (path scheme : String) (b : Bool) (data : Page)
    (hmiss : store ("page:" ++ path) = none)
    (hlive : readLiveBlogPage fetch (scheme ++ "://" ++ path) = some data) :
    readBlogPage fetch store decode path scheme b
      = some (data, false, [StoreOp.get ("page:" ++ path),
          StoreOp.set ("page:" ++ path) data setCacheTTL]) ∧
    setCacheBytes data = marshalIndentPage data "" " " ∧
    setCacheTTL = 1440 := by
  refine ⟨?_, rfl, rfl⟩
  simp [readBlogPage, getCache, hmiss, hlive]

/-- Witness for the amended claim C8 at a concrete fetch and empty store. -/
theorem readBlogPage_persist_format_witness :
    readBlogPage fetchFixture storeMiss decodeFail "p" "http" true
      = some (pageFixture, false, [StoreOp.get "page:p",
          StoreOp.set "page:p" pageFixture setCacheTTL]) ∧
    setCacheBytes pageFixture = marshalIndentPage pageFixture "" " " ∧
    setCacheTTL = 1440 :=
  readBlogPage_persist_format fetchFixture storeMiss decodeFail "p" "http" true
    pageFixture rfl (by decide)

/-- Claim C9 (confirmed): the page-level link sequence equals the
specification-style collection — only the path component of each link's
URL is kept, links with an empty path are excluded, and entries are
deduplicated by path with the first occurrence (and its text) winning; the
resulting paths are pairwise distinct and each entry comes from some input
link. -/
theorem collectPageLinks_dedup_paths (refs : List LinkRef) :
    (collectPageLinks refs).getD [] = specCollectLinks refs ∧
    ((specCollectLinks refs).map LinkItem.Uri).Nodup ∧
    (∀ it ∈ specCollectLinks refs,
      it.Uri ≠ "" ∧ ∃ r ∈ refs, it.Uri = r.url.path ∧ it.Title = r.text) := by
  refine ⟨?_, specCollectLinksAux_nodup refs [], ?_⟩
  · have h := collectPageLinksAux_spec refs none []
      (by intro s; simp [uriIsInLinkItems_none])
    simpa [collectPageLinks, specCollectLinks] using h
  · intro it hmem
    exact specCollectLinksAux_mem refs [] it hmem

/-- Witness for claim C9 at a concrete link list with an empty path and a
duplicate path. -/
theorem collectPageLinks_dedup_paths_witness :
    (collectPageLinks refsFixture).getD [] = specCollectLinks refsFixture ∧
    ((specCollectLinks refsFixture).map LinkItem.Uri).Nodup ∧
    (LinkItem.mk "A" "/a").Uri ≠ "" :=
  ⟨(collectPageLinks_dedup_paths refsFixture).1,
   (collectPageLinks_dedup_paths refsFixture).2.1,
   ((collectPageLinks_dedup_paths refsFixture).2.2 ⟨"A", "/a"⟩ (by decide)).1⟩

/-- Claim C10 (confirmed): every `Page` value written to the store carries
`cached = false` — the freshly computed value is written before the cached
flag is ever set — and on a cache hit the trace contains only the read, so
the served-from-cache marker never reaches the store. -/
theorem store_writes_never_cached (fetch : String → Option FetchedDoc)
    (store : String → Option String) (decode : String → Option Page)
    (path scheme : String) (b : Bool) (page : Page) (served : Bool)
    (trace : List StoreOp)
    (h : readBlogPage fetch store decode path scheme b = some (page, served, trace)) :
    (∀ k v t, StoreOp.set k v t ∈ trace → v.Cached = false) ∧
    (served = true → trace = [StoreOp.get ("page:" ++ path)]) := by
  unfold readBlogPage at h
  dsimp only at h
  split at h
  · cases h
    constructor
    · intro k v t hmem
      simp at hmem
    · intro _
      rfl
  · split at h
    · cases h
    · rename_i data hdata
      cases h
      constructor
      · intro k v t hmem
        simp only [List.mem_cons, List.mem_singleton] at hmem
        cases hmem with
        | inl h1 => cases h1
        | inr h2 =>
          cases h2 with
          | inl h2 =>
            obtain ⟨hk, hv, ht⟩ := StoreOp.set.inj h2
            exact hv ▸ readLiveBlogPage_not_cached fetch _ _ hdata
          | inr h3 => simp at h3
      · intro hs
        simp at hs

/-- Witness for claim C10 at a concrete miss-then-write run. -/
theorem store_writes_never_cached_witness :
    pageFixture.Cached = false :=
  (store_writes_never_cached fetchFixture storeMiss decodeFail "p" "http" false
      pageFixture false [StoreOp.get "page:p", StoreOp.set "page:p" pageFixture 1440]
      (by decide)).1
    "page:p" pageFixture 1440 (by decide)

end Crawler
